import Mathlib

/-!
Verification of the fishnet worker client (fishnet.py) against its
natural-language specification.  The Python source is shallowly embedded:
pure fragments become Lean functions, the stateful worker loop becomes
explicit state/trace passing, machine integers become Int/Nat, and
fallible Python code (raising exceptions) returns Except/Option values.
Line numbers in comments refer to fishnet.py.
-/

deriving instance DecidableEq for Except

/-- Python exceptions that the embedded fragments can raise. -/
inductive PyErr
  | keyError
  | valueError
  | typeError
  | indexError
  | eofError
deriving DecidableEq, Repr

/- ------------------------------------------------------------------
   Python string primitives used by the source.
   ------------------------------------------------------------------ -/

/-- Embedding of Python str.split(sep) for a single-character separator,
on character lists.  Splitting the empty string yields one empty piece,
and consecutive separators yield empty pieces, exactly as in Python. -/
def pySplitSep (sep : Char) : List Char → List (List Char)
  | [] => [[]]
  | c :: t =>
    match pySplitSep sep t with
    | [] => [[c]]
    | w :: ws => if c = sep then [] :: w :: ws else (c :: w) :: ws

/-- Python s.split(" "): split on every single space (fishnet.py:506, 758, 803). -/
def pySplitOnSpace (s : String) : List String :=
  (pySplitSep ' ' s.data).map String.mk

/-- Python s.split() with no argument: split on whitespace runs, dropping
empty pieces (fishnet.py:495).  "".split() is the empty list. -/
def pyWhitespaceSplit (s : String) : List String :=
  ((pySplitSep ' ' s.data).map String.mk).filter (fun t => t ≠ "")

/-- Python " ".join(items) (fishnet.py:462, 486). -/
def joinSpace (items : List String) : String :=
  String.intercalate " " items

/-- Value of a non-empty run of decimal digits, none if any character is
not a digit or the run is empty. -/
def digitsVal? (cs : List Char) : Option ℕ :=
  if cs = [] then none
  else cs.foldl
    (fun acc c => acc.bind (fun n => if c.isDigit then some (n * 10 + (c.toNat - 48)) else none))
    (some 0)

/-- Embedding of Python int(token) on the plain decimal literals that occur
in engine output: an optional sign followed by digits; none models the
ValueError raised on any other input (fishnet.py:530, 539). -/
def pyInt? (s : String) : Option ℤ :=
  match s.data with
  | '-' :: rest => (digitsVal? rest).map (fun n => -(n : ℤ))
  | '+' :: rest => (digitsVal? rest).map (fun n => (n : ℤ))
  | cs => (digitsVal? cs).map (fun n => (n : ℤ))

/-- Round num/den (den positive) to the nearest integer, ties to even:
the exact-rational rendering of Python 3 round() applied to the quotient.
Used where the source rounds a real-valued expression (fishnet.py:765, 768);
at every input reached by the claims the quotient is representable exactly,
so the float/rational distinction does not matter there. -/
def pyRoundFrac (num den : ℤ) : ℤ :=
  let f := Int.fdiv num den
  let r := num - f * den
  if 2 * r < den then f
  else if den < 2 * r then f + 1
  else if f % 2 = 0 then f else f + 1

/- ------------------------------------------------------------------
   Move-job parameters (fishnet.py:108-109, 755-787) and the go line
   builder (fishnet.py:461-486).
   ------------------------------------------------------------------ -/

/-- LVL_MOVETIMES table (fishnet.py:108). -/
def LVL_MOVETIMES : List ℤ := [50, 100, 150, 200, 300, 400, 500, 1000]

/-- LVL_DEPTHS table (fishnet.py:109). -/
def LVL_DEPTHS : List ℤ := [1, 1, 2, 3, 5, 8, 13, 22]

/-- movetime computed by Worker.bestmove (fishnet.py:768):
round(LVL_MOVETIMES[lvl-1] / (threads * 0.9 ** (threads - 1))), written as
an exact fraction of integers. -/
def movetimeFor (lvl threads : ℕ) : ℤ :=
  pyRoundFrac (LVL_MOVETIMES.getD (lvl - 1) 0 * 10 ^ (threads - 1))
    ((threads : ℤ) * 9 ^ (threads - 1))

/-- Skill Level option value set by Worker.bestmove (fishnet.py:765):
int(round((lvl - 1) * 20.0 / 7)). -/
def skillLevelFor (lvl : ℕ) : ℤ :=
  pyRoundFrac (((lvl : ℤ) - 1) * 20) 7

/-- Clock object of a move job (work.clock), integer fields as sent by the
server: wtime/btime in centiseconds, inc in seconds. -/
structure GoClock where
  wtime : ℤ
  btime : ℤ
  inc : ℤ
deriving DecidableEq, Repr

/-- The go command line built by go() (fishnet.py:465-486): optional
movetime, depth and nodes budgets in that order, then the clock with
wtime/btime scaled by 10 and both winc and binc set to inc * 1000. -/
def goLine (movetime : Option ℤ) (depth : Option ℤ) (nodes : Option ℤ)
    (clock : Option GoClock) : String :=
  joinSpace (["go"]
    ++ (match movetime with | some m => ["movetime", toString m] | none => [])
    ++ (match depth with | some d => ["depth", toString d] | none => [])
    ++ (match nodes with | some n => ["nodes", toString n] | none => [])
    ++ (match clock with
        | some c => ["wtime", toString (c.wtime * 10), "btime", toString (c.btime * 10),
                     "winc", toString (c.inc * 1000), "binc", toString (c.inc * 1000)]
        | none => []))

/-- The go line sent for a move job (fishnet.py:771-773): go() is called
with movetime = movetimeFor, depth = LVL_DEPTHS[lvl-1], no nodes budget,
and the job's optional clock. -/
def bestmoveGoLine (lvl threads : ℕ) (clock : Option GoClock) : String :=
  goLine (some (movetimeFor lvl threads)) (some (LVL_DEPTHS.getD (lvl - 1) 0)) none clock

/-- The position command sent by go() (fishnet.py:462). -/
def positionCmd (position : String) (moves : List String) : String :=
  "position fen " ++ position ++ " moves " ++ joinSpace moves

/-- Move list derived from a job (fishnet.py:758, 803): job["moves"].split(" "). -/
def jobMoves (movesField : String) : List String :=
  pySplitOnSpace movesField

/- ------------------------------------------------------------------
   Backoff generator (fishnet.py:101-102, 1433-1441), with exact
   rational arithmetic in place of floats.  The generator's stream of
   random.random() draws is passed in as a function rand with
   rand k ∈ [0, 1); the k-th yielded value (k starting at 1) uses rand k.
   ------------------------------------------------------------------ -/

/-- MAX_BACKOFF (fishnet.py:101). -/
def MAX_BACKOFF : ℚ := 30

/-- MAX_FIXED_BACKOFF (fishnet.py:102). -/
def MAX_FIXED_BACKOFF : ℚ := 3

/-- k-th value of the fixed-mode generator (fishnet.py:1435-1436):
random.random() * MAX_FIXED_BACKOFF. -/
def fixedBackoffVal (rand : ℕ → ℚ) (k : ℕ) : ℚ :=
  rand k * MAX_FIXED_BACKOFF

/-- Internal counter of the exponential generator before the (n+1)-th
yield: starts at 1 and after each yield becomes min (b + 1) MAX_BACKOFF
(fishnet.py:1438-1441). -/
def backoffCounter : ℕ → ℚ
  | 0 => 1
  | n + 1 => min (backoffCounter n + 1) MAX_BACKOFF

/-- k-th value of the exponential-with-jitter generator (fishnet.py:1440):
0.5 * b + 0.5 * b * random.random() with b the counter before the yield. -/
def expBackoffVal (rand : ℕ → ℚ) (k : ℕ) : ℚ :=
  (1 / 2) * backoffCounter (k - 1) + (1 / 2) * backoffCounter (k - 1) * rand k

/- ------------------------------------------------------------------
   UCI info-line parser and the go() read loop (fishnet.py:488-551).
   The info dictionary is embedded as a record with one optional field
   per key the parser can touch; noneKeyVal stands for the Python None
   key written when a value token arrives before any parameter keyword.
   ------------------------------------------------------------------ -/

/-- Kind of a score report: the score_kind strings "cp" or "mate"
(fishnet.py:533-534). -/
inductive ScoreKind
  | cp
  | mate
deriving DecidableEq, Repr

/-- The dictionary {score_kind: score_value} stored under "score"
(fishnet.py:549). -/
structure ScoreVal where
  kind : ScoreKind
  value : ℤ
deriving DecidableEq, Repr

/-- Parameter keys the info parser can select as current_parameter
(fishnet.py:513-523).  stringKw is the "string" parameter. -/
inductive PKey
  | depth
  | seldepth
  | time
  | nodes
  | multipv
  | currmove
  | currmovenumber
  | hashfull
  | nps
  | tbhits
  | cpuload
  | refutation
  | currline
  | stringKw
  | pv
  | score
deriving DecidableEq, Repr

/-- The keyword list of fishnet.py:519-522; "pv" and "score" are handled
by their own branches and are not in this list. -/
def keywordOf (t : String) : Option PKey :=
  if t = "depth" then some .depth
  else if t = "seldepth" then some .seldepth
  else if t = "time" then some .time
  else if t = "nodes" then some .nodes
  else if t = "multipv" then some .multipv
  else if t = "currmove" then some .currmove
  else if t = "currmovenumber" then some .currmovenumber
  else if t = "hashfull" then some .hashfull
  else if t = "nps" then some .nps
  else if t = "tbhits" then some .tbhits
  else if t = "cpuload" then some .cpuload
  else if t = "refutation" then some .refutation
  else if t = "currline" then some .currline
  else if t = "string" then some .stringKw
  else none

/-- The info dictionary entries the parser can write (fishnet.py:488-549). -/
structure InfoFields where
  depth : Option ℤ := none
  seldepth : Option ℤ := none
  time : Option ℤ := none
  nodes : Option ℤ := none
  multipv : Option ℤ := none
  currmovenumber : Option ℤ := none
  hashfull : Option ℤ := none
  nps : Option ℤ := none
  tbhits : Option ℤ := none
  cpuload : Option ℤ := none
  currmove : Option String := none
  refutation : Option String := none
  currline : Option String := none
  stringVal : Option String := none
  pv : Option String := none
  noneKeyVal : Option String := none
  score : Option ScoreVal := none
deriving DecidableEq, Repr

/-- The empty info dictionary. -/
def InfoFields.empty : InfoFields := {}

/-- info.pop(key, None) for a keyword key (fishnet.py:524). -/
def popField (f : InfoFields) : PKey → InfoFields
  | .depth => { f with depth := none }
  | .seldepth => { f with seldepth := none }
  | .time => { f with time := none }
  | .nodes => { f with nodes := none }
  | .multipv => { f with multipv := none }
  | .currmovenumber => { f with currmovenumber := none }
  | .hashfull => { f with hashfull := none }
  | .nps => { f with nps := none }
  | .tbhits => { f with tbhits := none }
  | .cpuload => { f with cpuload := none }
  | .currmove => { f with currmove := none }
  | .refutation => { f with refutation := none }
  | .currline => { f with currline := none }
  | .stringKw => { f with stringVal := none }
  | .pv => { f with pv := none }
  | .score => { f with score := none }

/-- info[key] = v for an integer parameter key (fishnet.py:530); identity
on the non-integer keys, which the integer branch never selects. -/
def setIntField (f : InfoFields) (k : PKey) (v : ℤ) : InfoFields :=
  match k with
  | .depth => { f with depth := some v }
  | .seldepth => { f with seldepth := some v }
  | .time => { f with time := some v }
  | .nodes => { f with nodes := some v }
  | .multipv => { f with multipv := some v }
  | .currmovenumber => { f with currmovenumber := some v }
  | .hashfull => { f with hashfull := some v }
  | .nps => { f with nps := some v }
  | .tbhits => { f with tbhits := some v }
  | .cpuload => { f with cpuload := some v }
  | _ => f

/-- String-parameter accumulation (fishnet.py:509-512, 542-545): the first
token is stored, later tokens are joined with a single space. -/
def appendOpt (o : Option String) (t : String) : Option String :=
  match o with
  | some s => some (s ++ " " ++ t)
  | none => some t

/-- Per-line parser state: the info dictionary accumulated so far plus the
per-line variables current_parameter, score_kind, score_value and
score_bound (fishnet.py:504-505). -/
structure LineState where
  fields : InfoFields
  current : Option PKey
  scoreKind : Option ScoreKind
  scoreValue : Option ℤ
  scoreBound : Bool
deriving DecidableEq, Repr

/-- Fresh per-line state over an existing info dictionary (fishnet.py:504-505). -/
def LineState.start (f : InfoFields) : LineState :=
  ⟨f, none, none, none, false⟩

/-- One step of the token loop of fishnet.py:506-545.  The branch order is
the source's elif chain: string state first, then the "score" and "pv"
tokens, then the keyword list, then dispatch on current_parameter. -/
def infoStep (st : LineState) (token : String) : Except PyErr LineState :=
  if st.current = some PKey.stringKw then
    .ok { st with fields := { st.fields with stringVal := appendOpt st.fields.stringVal token } }
  else if token = "score" then
    .ok { st with current := some .score }
  else if token = "pv" then
    .ok { st with
          current := some .pv
          fields := if st.fields.multipv.getD 1 = 1 then { st.fields with pv := none } else st.fields }
  else
    match keywordOf token with
    | some k => .ok { st with current := some k, fields := popField st.fields k }
    | none =>
      match st.current with
      | some .depth | some .seldepth | some .time | some .nodes | some .currmovenumber
      | some .hashfull | some .nps | some .tbhits | some .cpuload | some .multipv =>
        match pyInt? token with
        | some v => .ok { st with fields := setIntField st.fields (st.current.getD .depth) v }
        | none => .error .valueError
      | some .score =>
        if token = "cp" then .ok { st with scoreKind := some .cp, scoreValue := none }
        else if token = "mate" then .ok { st with scoreKind := some .mate, scoreValue := none }
        else if token = "lowerbound" ∨ token = "upperbound" then
          .ok { st with scoreBound := true }
        else
          match pyInt? token with
          | some v => .ok { st with scoreValue := some v }
          | none => .error .valueError
      | some .pv =>
        if st.fields.multipv.getD 1 = 1 then
          .ok { st with fields := { st.fields with pv := appendOpt st.fields.pv token } }
        else .ok st
      | some .currmove =>
        .ok { st with fields := { st.fields with currmove := appendOpt st.fields.currmove token } }
      | some .refutation =>
        .ok { st with fields := { st.fields with refutation := appendOpt st.fields.refutation token } }
      | some .currline =>
        .ok { st with fields := { st.fields with currline := appendOpt st.fields.currline token } }
      | none =>
        .ok { st with fields := { st.fields with noneKeyVal := appendOpt st.fields.noneKeyVal token } }
      | some .stringKw =>
        .ok { st with fields := { st.fields with stringVal := appendOpt st.fields.stringVal token } }

/-- The token loop of fishnet.py:506-545 over a token list. -/
def infoFold : List String → LineState → Except PyErr LineState
  | [], st => .ok st
  | t :: ts, st =>
    match infoStep st t with
    | .ok st' => infoFold ts st'
    | .error e => .error e

/-- End-of-line score commit (fishnet.py:547-549): info["score"] is set
only when a kind and a value were seen and no bound flag. -/
def finishLine (st : LineState) : InfoFields :=
  match st.scoreKind, st.scoreValue, st.scoreBound with
  | some k, some v, false => { st.fields with score := some ⟨k, v⟩ }
  | _, _, _ => st.fields

/-- Parse one info line's argument into an updated info dictionary
(fishnet.py:500-549): tokenize on single spaces, run the token loop from a
fresh per-line state, then commit the score. -/
def parseInfoLine (arg : String) (f : InfoFields) : Except PyErr InfoFields :=
  (infoFold (pySplitOnSpace arg) (LineState.start f)).map finishLine

/-- The full result of one go() call: the info dictionary is initialized
with a null bestmove (fishnet.py:488-489), which only the bestmove line
can set. -/
structure InfoDict where
  bestmove : Option String
  fields : InfoFields
deriving DecidableEq, Repr

/-- info = {}; info["bestmove"] = None (fishnet.py:488-489). -/
def InfoDict.init : InfoDict := ⟨none, InfoFields.empty⟩

/-- The read loop of go() (fishnet.py:491-551) over a scripted list of
engine lines, each already split by recv_uci into (command, argument).
EOF before a bestmove line is the EOFError raised by recv (fishnet.py:391);
a bestmove line whose argument has no whitespace token is the IndexError
raised by arg.split()[0] (fishnet.py:495); a failing int() conversion in an
info line is a ValueError.  Lines with any other command are logged and
skipped. -/
def goLoop : List (String × String) → InfoDict → Except PyErr InfoDict
  | [], _ => .error .eofError
  | (cmd, arg) :: rest, d =>
    if cmd = "bestmove" then
      match pyWhitespaceSplit arg with
      | [] => .error .indexError
      | t :: _ => .ok (if t ≠ "" ∧ t ≠ "(none)" then { d with bestmove := some t } else d)
    else if cmd = "info" then
      match parseInfoLine arg d.fields with
      | .ok f => goLoop rest { d with fields := f }
      | .error e => .error e
    else goLoop rest d

/-- The go() read loop restricted to lines that do not terminate it: the
state of the info dictionary after consuming a run of non-bestmove lines. -/
def preLines : List (String × String) → InfoDict → Except PyErr InfoDict
  | [], d => .ok d
  | (cmd, arg) :: rest, d =>
    if cmd = "info" then
      match parseInfoLine arg d.fields with
      | .ok f => preLines rest { d with fields := f }
      | .error e => .error e
    else preLines rest d

/- ------------------------------------------------------------------
   Analysis flow (fishnet.py:801-847).  The engine interaction of each
   ply is abstracted as a function from the replayed move prefix to the
   InfoDict returned by go(); progress reporting (fishnet.py:819-821)
   only posts partial results and never changes the accumulator, so it
   is not part of the embedding.
   ------------------------------------------------------------------ -/

/-- The plies written by the loop for ply in range(n, -1, -1)
(fishnet.py:818), in execution order. -/
def descRange : ℕ → List ℕ
  | 0 => [0]
  | n + 1 => (n + 1) :: descRange n

/-- Post-validation of one search result (fishnet.py:833-835): an nps of
at least 100000000 is deleted.  The very-low-time check (fishnet.py:830-831)
only logs a warning. -/
def npsValidate (part : InfoDict) : InfoDict :=
  match part.fields.nps with
  | some v => if 100000000 ≤ v then { part with fields := { part.fields with nps := none } } else part
  | none => part

/-- The analysis loop body from ply down to 0 (fishnet.py:818-840), over
the accumulating result array and the trace of plies written so far.
Reading part["score"] on a record without a score is the KeyError raised
at fishnet.py:830. -/
def analysisFill (search : List String → InfoDict) (moves : List String) :
    ℕ → List (Option InfoDict) → List ℕ → Except PyErr (List (Option InfoDict) × List ℕ)
  | 0, arr, tr =>
    match (search (moves.take 0)).fields.score with
    | none => .error .keyError
    | some _ => .ok (arr.set 0 (some (npsValidate (search (moves.take 0)))), tr ++ [0])
  | p + 1, arr, tr =>
    match (search (moves.take (p + 1))).fields.score with
    | none => .error .keyError
    | some _ =>
      analysisFill search moves p
        (arr.set (p + 1) (some (npsValidate (search (moves.take (p + 1))))))
        (tr ++ [p + 1])

/-- Worker.analysis (fishnet.py:801-847): the result array starts as
len(moves) + 1 null entries (fishnet.py:806) and is filled by the loop
from ply = len(moves) down to 0.  The returned trace records the order in
which plies were written. -/
def analysisResult (search : List String → InfoDict) (moves : List String) :
    Except PyErr (List (Option InfoDict) × List ℕ) :=
  analysisFill search moves moves.length (List.replicate (moves.length + 1) none) []

/- ------------------------------------------------------------------
   Censoring log filter (fishnet.py:198-220).
   ------------------------------------------------------------------ -/

/-- Embedding of Python s.replace(needle, repl) for a non-empty needle on
character lists: scan left to right, replacing each leftmost
non-overlapping occurrence.  The fuel argument bounds the recursion and
is irrelevant once it is at least the length of the scanned list; for an
empty needle the scan copies the input unchanged (the censor filter only
replaces when the keyword is non-empty). -/
def pyReplaceFuel (needle repl : List Char) : ℕ → List Char → List Char
  | 0, s => s
  | fuel + 1, s =>
    if needle ≠ [] ∧ needle.isPrefixOf s then
      repl ++ pyReplaceFuel needle repl fuel (s.drop needle.length)
    else
      match s with
      | [] => []
      | c :: t => c :: pyReplaceFuel needle repl fuel t

/-- Python s.replace(needle, repl) for the non-empty needles the censor
filter uses. -/
def pyReplace (needle repl s : List Char) : List Char :=
  pyReplaceFuel needle repl s.length s

/-- CensorLogFilter.censor on a string message (fishnet.py:202-215): a
non-empty keyword is replaced by an equal-length run of stars; an empty
keyword leaves the message unchanged. -/
def censorChars (keyword msg : List Char) : List Char :=
  if keyword = [] then msg
  else pyReplace keyword (List.replicate keyword.length '*') msg

/-- CensorLogFilter.censor on Lean strings. -/
def censorMsg (keyword msg : String) : String :=
  String.mk (censorChars keyword.data msg.data)

/- ------------------------------------------------------------------
   Worker.run_inner error classification (fishnet.py:614-686).  The
   side effects of each except branch are recorded as a trace of
   actions; control leaves each branch either normally, by raising
   UpdateRequired, or by an uncaught Python exception.
   ------------------------------------------------------------------ -/

/-- JSON values as produced by json.loads; numbers are restricted to the
integers, which covers every body the claims touch. -/
inductive JVal
  | null
  | bool (b : Bool)
  | num (n : ℤ)
  | str (s : String)
  | arr (elems : List JVal)
  | obj (members : List (String × JVal))

/-- Boolean test that needle occurs contiguously in hay. -/
def hasInfixChars (needle : List Char) : List Char → Bool
  | [] => needle.isEmpty
  | c :: t => needle.isPrefixOf (c :: t) || hasInfixChars needle t

/-- Boolean substring test: needle occurs contiguously in hay. -/
def strContains (hay needle : String) : Bool :=
  hasInfixChars needle.data hay.data

/-- Python value["error"] (fishnet.py:657): member lookup on a dict from
json.loads (member names are unique there, so first match suffices),
KeyError when the key is missing, TypeError when the value is not a dict. -/
def lookupError : JVal → Except PyErr JVal
  | .obj members =>
    match members.find? (fun m => m.1 = "error") with
    | some m => .ok m.2
    | none => .error .keyError
  | .str _ => .error .typeError
  | .arr _ => .error .typeError
  | .null => .error .typeError
  | .bool _ => .error .typeError
  | .num _ => .error .typeError

/-- Python membership test needle in value (fishnet.py:660): substring
test on a string, element test on a list, key test on a dict, TypeError
on null, booleans and numbers. -/
def pyIn (needle : String) : JVal → Except PyErr Bool
  | .str s => .ok (strContains s needle)
  | .arr elems => .ok (elems.any (fun e => match e with | .str s => s = needle | _ => false))
  | .obj members => .ok (members.any (fun m => m.1 = needle))
  | .null => .error .typeError
  | .bool _ => .error .typeError
  | .num _ => .error .typeError

/-- The update hint searched for in 4xx bodies (fishnet.py:660). -/
def upgradeHint : String := "Please restart fishnet to upgrade."

/-- Observable side effects of one except branch of Worker.run_inner. -/
inductive WAct
  | clearJob
  | drawBackoff
  | sleepBackoff
  | abortJob
  | killEngine
deriving DecidableEq, Repr

/-- How control leaves an except branch of Worker.run_inner. -/
inductive COutcome
  | finished
  | raiseUpdateRequired
  | uncaught (e : PyErr)
deriving DecidableEq, Repr

/-- The error being dispatched by the except chain of fishnet.py:647-686.
A client error carries its body, already decoded and parsed: none stands
for a body that is not valid JSON (json.loads raises ValueError, and a
UnicodeDecodeError from decode() is also a ValueError). -/
inductive IterError
  | serverError
  | clientError (body : Option JVal)
  | deadEngine
  | otherError

/-- The HttpClientError branch (fishnet.py:652-666): clear the job, draw
the next backoff value, then try to read body["error"]; if the hint is
found, raise UpdateRequired before sleeping; a KeyError or ValueError is
caught and the branch sleeps; any TypeError from the lookup or the
membership test propagates uncaught, skipping the sleep. -/
def handleClientError (body : Option JVal) : List WAct × COutcome :=
  let pre : List WAct := [.clearJob, .drawBackoff]
  match body with
  | none => (pre ++ [.sleepBackoff], .finished)
  | some j =>
    match lookupError j with
    | .error .keyError => (pre ++ [.sleepBackoff], .finished)
    | .error e => (pre, .uncaught e)
    | .ok v =>
      match pyIn upgradeHint v with
      | .error e => (pre, .uncaught e)
      | .ok true => (pre, .raiseUpdateRequired)
      | .ok false => (pre ++ [.sleepBackoff], .finished)

/-- The except chain of Worker.run_inner (fishnet.py:647-686).  In the
dead-engine branch the backoff value is drawn first (only if the worker
is still alive), then the job is aborted best-effort, then the branch
sleeps and force-kills the engine handle. -/
def workerHandle : IterError → Bool → List WAct × COutcome
  | .serverError, _ => ([.clearJob, .drawBackoff, .sleepBackoff], .finished)
  | .clientError body, _ => handleClientError body
  | .deadEngine, alive =>
    ((if alive then [.drawBackoff] else []) ++ [.abortJob]
      ++ (if alive then [.sleepBackoff, .killEngine] else []), .finished)
  | .otherError, _ => ([.clearJob, .drawBackoff, .sleepBackoff, .killEngine], .finished)

/-- Rendering of the spec sentence for claim C5, following its words: the
body parses as JSON and carries an error string that contains the upgrade
hint. -/
def specUpgradeBody (body : Option JVal) : Bool :=
  match body with
  | some (.obj members) =>
    match members.find? (fun m => m.1 = "error") with
    | some (_, .str s) => strContains s upgradeHint
    | _ => false
  | _ => false

/- ------------------------------------------------------------------
   Concrete sample inputs used to instantiate theorems.
   ------------------------------------------------------------------ -/

/-- A search stub returning a fixed scored record for every position. -/
def sampleSearch : List String → InfoDict :=
  fun _ => ⟨some "e2e4", { InfoFields.empty with score := some ⟨.cp, 12⟩ }⟩

/-- A search stub returning a record with no score for every position. -/
def sampleSearchNoScore : List String → InfoDict :=
  fun _ => ⟨some "e2e4", { InfoFields.empty with depth := some 5 }⟩

/-- Move list of scenario S3. -/
def sampleMoves : List String := ["e2e4", "e7e5"]

/-- A 4xx body whose error member is a list containing the upgrade hint. -/
def listErrorBody : Option JVal := some (.obj [("error", .arr [.str upgradeHint])])

/-- A 4xx body whose error member is the upgrade hint itself. -/
def strErrorBody : Option JVal := some (.obj [("error", .str upgradeHint)])

/- ------------------------------------------------------------------
   Theorems.
   ------------------------------------------------------------------ -/

/-- C2: for a move job with level 4, clock {wtime: 6000, btime: 6000,
inc: 0} and threads = 1, the driver sends exactly the line
"go movetime 200 depth 3 wtime 60000 btime 60000 winc 0 binc 0", where
movetime = round(LVL_MOVETIMES[level-1] / (threads * 0.9^(threads-1))),
depth = LVL_DEPTHS[level-1], clock times are scaled by 10 and increments
by 1000 with the parameters in that order, and the Skill Level option is
set to 9. -/
theorem C2_move_job_level4 :
    bestmoveGoLine 4 1 (some ⟨6000, 6000, 0⟩) =
      "go movetime 200 depth 3 wtime 60000 btime 60000 winc 0 binc 0" ∧
    movetimeFor 4 1 = 200 ∧ LVL_DEPTHS.getD (4 - 1) 0 = 3 ∧ skillLevelFor 4 = 9 := by
  refine ⟨?_, ?_, ?_, ?_⟩ <;> decide

/-- The exponential backoff counter before the (n+1)-th yield equals
min (n + 1) 30. -/
theorem backoffCounter_eq (n : ℕ) : backoffCounter n = min ((n : ℚ) + 1) 30 := by
  induction n with
  | zero =>
    show (1 : ℚ) = min ((0 : ℚ) + 1) 30
    norm_num
  | succ n ih =>
    rw [backoffCounter, ih, MAX_BACKOFF]
    have hc : ((n + 1 : ℕ) : ℚ) + 1 = (n : ℚ) + 1 + 1 := by push_cast; ring
    rw [hc]
    rcases le_total ((n : ℚ) + 1) 30 with h | h
    · rw [min_eq_left h]
    · rw [min_eq_right h,
        min_eq_right (by norm_num : (30 : ℚ) ≤ 30 + 1),
        min_eq_right (by linarith : (30 : ℚ) ≤ (n : ℚ) + 1 + 1)]

/-- C4: for every stream of random draws in [0, 1), the fixed-mode
backoff values lie in [0, 3); in exponential mode the k-th value
(k starting at 1) lies in [0.5 * min(k, 30), min(k, 30)), because the
counter starts at 1, each yield is 0.5*b + 0.5*b*rand and b is then
updated to min(b + 1, 30). -/
theorem C4_backoff_ranges (rand : ℕ → ℚ) (k : ℕ)
    (h0 : 0 ≤ rand k) (h1 : rand k < 1) (hk : 1 ≤ k) :
    (0 ≤ fixedBackoffVal rand k ∧ fixedBackoffVal rand k < 3) ∧
    ((1 / 2) * min (k : ℚ) 30 ≤ expBackoffVal rand k ∧
      expBackoffVal rand k < min (k : ℚ) 30) := by
  have hcast : ((k - 1 : ℕ) : ℚ) = (k : ℚ) - 1 := by
    rw [Nat.cast_sub hk]
    norm_num
  have hb : backoffCounter (k - 1) = min (k : ℚ) 30 := by
    rw [backoffCounter_eq, hcast]
    congr 1
    ring
  have hkq : (1 : ℚ) ≤ (k : ℚ) := by exact_mod_cast hk
  have hbpos : (1 : ℚ) ≤ min (k : ℚ) 30 := le_min hkq (by norm_num)
  have hbpos' : (0 : ℚ) < min (k : ℚ) 30 := lt_of_lt_of_le zero_lt_one hbpos
  refine ⟨⟨?_, ?_⟩, ?_, ?_⟩
  · exact mul_nonneg h0 (by norm_num [MAX_FIXED_BACKOFF])
  · show rand k * MAX_FIXED_BACKOFF < 3
    rw [MAX_FIXED_BACKOFF]
    nlinarith
  · show (1 / 2) * min (k : ℚ) 30 ≤
      (1 / 2) * backoffCounter (k - 1) + (1 / 2) * backoffCounter (k - 1) * rand k
    rw [hb]
    nlinarith [mul_nonneg (le_of_lt hbpos') h0]
  · show (1 / 2) * backoffCounter (k - 1) + (1 / 2) * backoffCounter (k - 1) * rand k <
      min (k : ℚ) 30
    rw [hb]
    nlinarith [mul_pos hbpos' (by linarith : (0 : ℚ) < 1 - rand k)]

/-- Witness for C4 at the all-zero random stream and k = 1. -/
theorem C4_backoff_ranges_witness :
    (0 ≤ (fun _ : ℕ => (0 : ℚ)) 1) ∧ ((fun _ : ℕ => (0 : ℚ)) 1 < 1) ∧ ((1 : ℕ) ≤ 1) ∧
    ((0 ≤ fixedBackoffVal (fun _ => 0) 1 ∧ fixedBackoffVal (fun _ => 0) 1 < 3) ∧
     ((1 / 2) * min ((1 : ℕ) : ℚ) 30 ≤ expBackoffVal (fun _ => 0) 1 ∧
      expBackoffVal (fun _ => 0) 1 < min ((1 : ℕ) : ℚ) 30)) :=
  ⟨le_refl 0, zero_lt_one, le_refl 1,
   C4_backoff_ranges (fun _ => 0) 1 (le_refl 0) zero_lt_one (le_refl 1)⟩

/-- C8 counterexample: in the dead-engine branch with the alive flag set,
the job abort happens strictly before the backoff sleep (and before the
engine kill), not after them as the claim states. -/
theorem C8_counterexample :
    (workerHandle .deadEngine true).1 =
      [.drawBackoff, .abortJob, .sleepBackoff, .killEngine] ∧
    (workerHandle .deadEngine true).1.indexOf WAct.abortJob <
      (workerHandle .deadEngine true).1.indexOf WAct.sleepBackoff := by
  refine ⟨?_, ?_⟩ <;> decide

/-- C8 amended: when a dead-engine error surfaces while the alive flag is
set, the worker first draws the next backoff value, then best-effort
aborts the current job, and only then sleeps for the drawn value and
force-kills the engine handle; when the flag is cleared it only aborts. -/
theorem C8_amended :
    workerHandle .deadEngine true =
      ([.drawBackoff, .abortJob, .sleepBackoff, .killEngine], .finished) ∧
    workerHandle .deadEngine false = ([.abortJob], .finished) :=
  ⟨rfl, rfl⟩

/-- Once the per-line parser state is in the string parameter, every token
is appended to the string field and nothing else in the state changes. -/
theorem infoFold_stringState (ts : List String) :
    ∀ (f : InfoFields) (sk : Option ScoreKind) (sv : Option ℤ) (sb : Bool),
    infoFold ts ⟨f, some .stringKw, sk, sv, sb⟩ =
      .ok ⟨{ f with stringVal := ts.foldl appendOpt f.stringVal },
           some .stringKw, sk, sv, sb⟩ := by
  induction ts with
  | nil => intro f sk sv sb; rfl
  | cons t ts ih =>
    intro f sk sv sb
    have hstep : infoFold (t :: ts) ⟨f, some .stringKw, sk, sv, sb⟩ =
        infoFold ts ⟨{ f with stringVal := appendOpt f.stringVal t },
                     some .stringKw, sk, sv, sb⟩ := rfl
    rw [hstep, ih]
    rfl

/-- C3: once the info-line parser enters the string state, every
subsequent token up to end of line is appended space-joined to the string
field (even tokens that spell parameter keywords), and parsing
"string foo bar baz" yields string = "foo bar baz". -/
theorem C3_string_state :
    (∀ (ts : List String) (f : InfoFields) (sk : Option ScoreKind) (sv : Option ℤ) (sb : Bool),
      infoFold ts ⟨f, some .stringKw, sk, sv, sb⟩ =
        .ok ⟨{ f with stringVal := ts.foldl appendOpt f.stringVal },
             some .stringKw, sk, sv, sb⟩) ∧
    parseInfoLine "string foo bar baz" InfoFields.empty =
      .ok { InfoFields.empty with stringVal := some "foo bar baz" } ∧
    parseInfoLine "string foo depth 7 score cp 5" InfoFields.empty =
      .ok { InfoFields.empty with stringVal := some "foo depth 7 score cp 5" } :=
  ⟨infoFold_stringState, by decide, by decide⟩

/-- C5 counterexample: a 4xx body whose error member is a list containing
the upgrade hint makes the worker raise UpdateRequired even though the
body has no error string, refuting the claimed equivalence. -/
theorem C5_counterexample :
    (workerHandle (.clientError listErrorBody) true).2 = .raiseUpdateRequired ∧
    specUpgradeBody listErrorBody = false := by
  refine ⟨?_, ?_⟩ <;> decide

/-- C5 amended: on a 4xx response the worker raises UpdateRequired iff
the body parses as JSON, the error lookup succeeds, and the Python
membership test of the hint against the error value returns true (a
substring of an error string, an element of an error list, or a key of an
error dict); every body satisfying the spec wording (an error string
containing the hint) does raise UpdateRequired; a body that is not JSON
or lacks the error key clears the job and sleeps a backoff value; a body
whose JSON value is not a dict, or whose error value supports no
membership test, lets a TypeError escape the worker loop without
sleeping. -/
theorem C5_amended (body : Option JVal) :
    ((workerHandle (.clientError body) true).2 = .raiseUpdateRequired ↔
      (∃ j v, body = some j ∧ lookupError j = .ok v ∧ pyIn upgradeHint v = .ok true)) ∧
    (specUpgradeBody body = true →
      (workerHandle (.clientError body) true).2 = .raiseUpdateRequired) ∧
    ((body = none ∨ ∃ j, body = some j ∧ lookupError j = .error .keyError) →
      workerHandle (.clientError body) true =
        ([.clearJob, .drawBackoff, .sleepBackoff], .finished)) ∧
    ((∃ j, body = some j ∧ (lookupError j = .error .typeError ∨
        ∃ v, lookupError j = .ok v ∧ pyIn upgradeHint v = .error .typeError)) →
      workerHandle (.clientError body) true =
        ([.clearJob, .drawBackoff], .uncaught .typeError)) := by
  have hwh : workerHandle (.clientError body) true = handleClientError body := rfl
  refine ⟨?_, ?_, ?_, ?_⟩
  · rw [hwh]
    constructor
    · intro h
      match hbody : body with
      | none => simp [handleClientError] at h
      | some j =>
        match he : lookupError j with
        | .error .keyError => simp [handleClientError, he] at h
        | .error .valueError => simp [handleClientError, he] at h
        | .error .typeError => simp [handleClientError, he] at h
        | .error .indexError => simp [handleClientError, he] at h
        | .error .eofError => simp [handleClientError, he] at h
        | .ok v =>
          match hin : pyIn upgradeHint v with
          | .error e => simp [handleClientError, he, hin] at h
          | .ok false => simp [handleClientError, he, hin] at h
          | .ok true => exact ⟨j, v, rfl, he, hin⟩
    · rintro ⟨j, v, rfl, he, hin⟩
      simp [handleClientError, he, hin]
  · intro hspec
    rw [hwh]
    match hbody : body with
    | none => simp [specUpgradeBody] at hspec
    | some (.null) => simp [specUpgradeBody] at hspec
    | some (.bool b) => simp [specUpgradeBody] at hspec
    | some (.num n) => simp [specUpgradeBody] at hspec
    | some (.str s) => simp [specUpgradeBody] at hspec
    | some (.arr xs) => simp [specUpgradeBody] at hspec
    | some (.obj members) =>
      match hf : members.find? (fun m => m.1 = "error") with
      | none => rw [specUpgradeBody, hf] at hspec; simp at hspec
      | some (name, .null) => rw [specUpgradeBody, hf] at hspec; simp at hspec
      | some (name, .bool b) => rw [specUpgradeBody, hf] at hspec; simp at hspec
      | some (name, .num n) => rw [specUpgradeBody, hf] at hspec; simp at hspec
      | some (name, .arr xs) => rw [specUpgradeBody, hf] at hspec; simp at hspec
      | some (name, .obj ms) => rw [specUpgradeBody, hf] at hspec; simp at hspec
      | some (name, .str s) =>
        rw [specUpgradeBody, hf] at hspec
        simp only [handleClientError, lookupError, hf, pyIn]
        simp at hspec
        simp [hspec]
  · rintro (rfl | ⟨j, rfl, he⟩)
    · rfl
    · rw [hwh]
      simp [handleClientError, he]
  · rintro ⟨j, rfl, he | ⟨v, he, hin⟩⟩
    · rw [hwh]
      simp [handleClientError, he]
    · rw [hwh]
      simp [handleClientError, he, hin]

/-- Witness for C5 at a body whose error string is exactly the hint. -/
theorem C5_amended_witness :
    specUpgradeBody strErrorBody = true ∧
    (workerHandle (.clientError strErrorBody) true).2 = .raiseUpdateRequired :=
  ⟨by decide, (C5_amended strErrorBody).2.1 (by decide)⟩

/-- Consuming non-bestmove lines never changes the bestmove entry of the
info dictionary. -/
theorem preLines_bestmove (pre : List (String × String)) :
    ∀ (d0 d1 : InfoDict), preLines pre d0 = .ok d1 → d1.bestmove = d0.bestmove := by
  induction pre with
  | nil =>
    intro d0 d1 h
    simp [preLines] at h
    rw [← h]
  | cons l pre ih =>
    intro d0 d1 h
    obtain ⟨cmd, arg⟩ := l
    by_cases hinfo : cmd = "info"
    · subst hinfo
      rcases hp : parseInfoLine arg d0.fields with e | f
      · rw [preLines, if_pos rfl, hp] at h
        exact absurd h (by simp)
      · rw [preLines, if_pos rfl, hp] at h
        exact ih { d0 with fields := f } d1 h
    · rw [preLines, if_neg hinfo] at h
      exact ih d0 d1 h

/-- Splitting the go() read loop at a run of non-bestmove lines: the loop
first accumulates the info dictionary over the run, then continues. -/
theorem goLoop_split (pre : List (String × String)) :
    ∀ (rest : List (String × String)) (d : InfoDict),
    (∀ l ∈ pre, l.1 ≠ "bestmove") →
    goLoop (pre ++ rest) d =
      (match preLines pre d with
       | .ok d1 => goLoop rest d1
       | .error e => .error e) := by
  induction pre with
  | nil => intro rest d _; rfl
  | cons l pre ih =>
    intro rest d h
    obtain ⟨cmd, arg⟩ := l
    have hcmd : cmd ≠ "bestmove" := h (cmd, arg) (List.mem_cons_self _ _)
    have hrest : ∀ x ∈ pre, x.1 ≠ "bestmove" := fun x hx => h x (List.mem_cons_of_mem _ hx)
    by_cases hinfo : cmd = "info"
    · subst hinfo
      rcases hp : parseInfoLine arg d.fields with e | f
      · rw [List.cons_append, goLoop, if_neg hcmd, if_pos rfl, hp,
          preLines, if_pos rfl, hp]
      · rw [List.cons_append, goLoop, if_neg hcmd, if_pos rfl, hp,
          preLines, if_pos rfl, hp]
        exact ih rest { d with fields := f } hrest
    · rw [List.cons_append, goLoop, if_neg hcmd, if_neg hinfo,
        preLines, if_neg hinfo, ih rest d hrest]

/-- C7 counterexample: a bestmove line carrying no move at all is not
handled totally; arg.split()[0] raises IndexError instead of returning a
record with a null bestmove, while a "(none)" argument does return the
unchanged record. -/
theorem C7_counterexample :
    goLoop [("bestmove", "")] InfoDict.init = .error .indexError ∧
    goLoop [("bestmove", "(none)")] InfoDict.init = .ok InfoDict.init := by
  refine ⟨?_, ?_⟩ <;> decide

/-- C7 amended: for a stream of engine lines ending in the first bestmove
line, the returned record's bestmove is null when the engine reports
"(none)" (the accumulated record is returned unchanged, and info lines
never set bestmove), and otherwise equals the first whitespace token of
the argument; but a bare bestmove line whose argument holds no token
raises an IndexError, so the handling is not total. -/
theorem C7_bestmove_handling (pre : List (String × String)) (arg : String)
    (d0 d1 : InfoDict)
    (hpre : ∀ l ∈ pre, l.1 ≠ "bestmove") (hok : preLines pre d0 = .ok d1) :
    goLoop (pre ++ [("bestmove", arg)]) d0 =
      (match pyWhitespaceSplit arg with
       | [] => .error .indexError
       | t :: _ => .ok (if t ≠ "" ∧ t ≠ "(none)" then { d1 with bestmove := some t } else d1)) ∧
    d1.bestmove = d0.bestmove := by
  constructor
  · rw [goLoop_split pre [("bestmove", arg)] d0 hpre, hok]
    rfl
  · exact preLines_bestmove pre d0 d1 hok

/-- Witness for C7 at one info line followed by a bestmove line with a
ponder continuation. -/
theorem C7_bestmove_handling_witness :
    (∀ l ∈ [("info", "depth 5")], (l : String × String).1 ≠ "bestmove") ∧
    preLines [("info", "depth 5")] InfoDict.init =
      .ok ⟨none, { InfoFields.empty with depth := some 5 }⟩ ∧
    goLoop ([("info", "depth 5")] ++ [("bestmove", "e2e4 ponder e7e5")]) InfoDict.init =
      .ok ⟨some "e2e4", { InfoFields.empty with depth := some 5 }⟩ :=
  ⟨by decide, by decide,
   (C7_bestmove_handling [("info", "depth 5")] "e2e4 ponder e7e5" InfoDict.init
      ⟨none, { InfoFields.empty with depth := some 5 }⟩ (by decide) (by decide)).1⟩

/-- Bridge between the executable isPrefixOf test used by pyReplaceFuel
and the propositional relation. -/
theorem isPrefixOf_bridge {l1 l2 : List Char} : l1.isPrefixOf l2 = true ↔ l1 <+: l2 :=
  List.isPrefixOf_iff_prefix

/-- Replacement by a same-length pattern preserves the length of the
scanned list. -/
theorem pyReplaceFuel_length (needle repl : List Char) (hlen : repl.length = needle.length) :
    ∀ (fuel : ℕ) (s : List Char), s.length ≤ fuel →
      (pyReplaceFuel needle repl fuel s).length = s.length := by
  intro fuel
  induction fuel with
  | zero => intro s _; rfl
  | succ fuel ih =>
    intro s hs
    simp only [pyReplaceFuel]
    by_cases hp : needle ≠ [] ∧ needle.isPrefixOf s
    · rw [if_pos hp]
      have hpre : needle <+: s := isPrefixOf_bridge.mp hp.2
      have h1 : 1 ≤ needle.length := List.length_pos.mpr hp.1
      have h2 : needle.length ≤ s.length := hpre.length_le
      have hfuel : (s.drop needle.length).length ≤ fuel := by
        rw [List.length_drop]
        omega
      rw [List.length_append, ih _ hfuel, List.length_drop, hlen]
      omega
    · rw [if_neg hp]
      cases s with
      | nil => rfl
      | cons c t =>
        have ht : t.length ≤ fuel := by
          simp only [List.length_cons] at hs
          omega
        simp [ih t ht]

/-- Prepending a run of stars to a list cannot create an occurrence of a
star-free non-empty word. -/
theorem not_infix_starRun (k : List Char) (hk : k ≠ []) (hstar : '*' ∉ k) :
    ∀ (n : ℕ) (rest : List Char), ¬ k <:+: rest →
      ¬ k <:+: (List.replicate n '*' ++ rest) := by
  intro n
  induction n with
  | zero => intro rest h; simpa using h
  | succ n ih =>
    intro rest h hcon
    rw [List.replicate_succ, List.cons_append] at hcon
    rcases List.infix_cons_iff.mp hcon with hpre | hinf
    · cases k with
      | nil => exact hk rfl
      | cons a k1 =>
        rcases List.cons_prefix_cons.mp hpre with ⟨ha, _⟩
        refine hstar ?_
        rw [ha]
        exact List.mem_cons_self _ _
    · exact ih rest h hinf

/-- A star-free word that survives as a prefix of the replaced list was
already a prefix of the original list. -/
theorem starFree_prefix_transfer (k : List Char) :
    ∀ (fuel : ℕ) (s u : List Char), s.length ≤ fuel → '*' ∉ u →
      u <+: pyReplaceFuel k (List.replicate k.length '*') fuel s → u <+: s := by
  intro fuel
  induction fuel with
  | zero => intro s u _ _ hu; exact hu
  | succ fuel ih =>
    intro s u hs hstar hu
    simp only [pyReplaceFuel] at hu
    by_cases hp : k ≠ [] ∧ k.isPrefixOf s
    · rw [if_pos hp] at hu
      cases u with
      | nil => exact ⟨s, rfl⟩
      | cons a u1 =>
        have hklen : k.length ≠ 0 := fun h0 => hp.1 (List.length_eq_zero.mp h0)
        obtain ⟨m, hm⟩ : ∃ m, k.length = m + 1 := ⟨k.length - 1, by omega⟩
        rw [hm, List.replicate_succ, List.cons_append] at hu
        rcases List.cons_prefix_cons.mp hu with ⟨ha, _⟩
        refine absurd ?_ hstar
        rw [ha]
        exact List.mem_cons_self _ _
    · rw [if_neg hp] at hu
      cases s with
      | nil =>
        have hnil : u = [] := List.prefix_nil.mp hu
        rw [hnil]
      | cons c t =>
        cases u with
        | nil => exact ⟨c :: t, rfl⟩
        | cons a u1 =>
          rcases List.cons_prefix_cons.mp hu with ⟨ha, hu1⟩
          have hstar1 : '*' ∉ u1 := fun hm => hstar (List.mem_cons_of_mem _ hm)
          have ht : t.length ≤ fuel := by
            simp only [List.length_cons] at hs
            omega
          exact List.cons_prefix_cons.mpr ⟨ha, ih t u1 ht hstar1 hu1⟩

/-- Core of the censor guarantee: replacing every occurrence of a
star-free non-empty keyword by a star run leaves no occurrence of the
keyword. -/
theorem not_infix_pyReplaceFuel (k : List Char) (hk : k ≠ []) (hstar : '*' ∉ k) :
    ∀ (fuel : ℕ) (s : List Char), s.length ≤ fuel →
      ¬ k <:+: pyReplaceFuel k (List.replicate k.length '*') fuel s := by
  intro fuel
  induction fuel with
  | zero =>
    intro s hs
    have hs0 : s = [] := List.length_eq_zero.mp (Nat.le_zero.mp hs)
    rw [hs0]
    intro hcon
    exact hk (List.infix_nil.mp hcon)
  | succ fuel ih =>
    intro s hs
    simp only [pyReplaceFuel]
    by_cases hp : k ≠ [] ∧ k.isPrefixOf s
    · rw [if_pos hp]
      have hpre : k <+: s := isPrefixOf_bridge.mp hp.2
      have hfuel : (s.drop k.length).length ≤ fuel := by
        rw [List.length_drop]
        have h1 : 1 ≤ k.length := List.length_pos.mpr hk
        have h2 : k.length ≤ s.length := hpre.length_le
        omega
      exact not_infix_starRun k hk hstar k.length _ (ih _ hfuel)
    · rw [if_neg hp]
      cases s with
      | nil =>
        intro hcon
        exact hk (List.infix_nil.mp hcon)
      | cons c t =>
        have ht : t.length ≤ fuel := by
          simp only [List.length_cons] at hs
          omega
        intro hcon
        rcases List.infix_cons_iff.mp hcon with hpre2 | hinf
        · cases k with
          | nil => exact hk rfl
          | cons a k1 =>
            rcases List.cons_prefix_cons.mp hpre2 with ⟨ha, hk1⟩
            have hstar1 : '*' ∉ k1 := fun hm => hstar (List.mem_cons_of_mem _ hm)
            have hk1t : k1 <+: t := starFree_prefix_transfer (a :: k1) fuel t k1 ht hstar1 hk1
            have hps : (a :: k1).isPrefixOf (c :: t) = true :=
              isPrefixOf_bridge.mpr (List.cons_prefix_cons.mpr ⟨ha, hk1t⟩)
            exact hp ⟨hk, hps⟩
        · exact ih t ht hinf

/-- C6 counterexample: for the key "*a" and the message "**aa" the filter
produces "***a", in which the key still occurs as a substring, refuting
the claim for keys that contain a star. -/
theorem C6_counterexample :
    censorMsg "*a" "**aa" = "***a" ∧
    ("*a" : String).data <:+: (censorMsg "*a" "**aa").data :=
  ⟨by decide, ⟨['*', '*'], [], by decide⟩⟩

/-- C6 amended: for every message and every non-empty key, the filter
replaces occurrences of the key by equal-length star runs (so the output
keeps the message's length), and whenever the key contains no star
character it does not occur as a substring of the filtered output. -/
theorem C6_censor (k msg : String) (hk : k ≠ "") :
    (censorMsg k msg).length = msg.length ∧
    ('*' ∉ k.data → ¬ (k.data <:+: (censorMsg k msg).data)) := by
  have hkd : k.data ≠ [] := by
    intro h
    exact hk (String.ext h)
  constructor
  · show (censorChars k.data msg.data).length = msg.data.length
    rw [censorChars, if_neg hkd]
    exact pyReplaceFuel_length k.data _ (List.length_replicate _ _) msg.data.length msg.data
      le_rfl
  · intro hstar
    show ¬ k.data <:+: censorChars k.data msg.data
    rw [censorChars, if_neg hkd]
    exact not_infix_pyReplaceFuel k.data hkd hstar msg.data.length msg.data le_rfl

/-- Witness for C6 at the key "secret" and the message "a secret here". -/
theorem C6_censor_witness :
    ("secret" : String) ≠ "" ∧ '*' ∉ ("secret" : String).data ∧
    (censorMsg "secret" "a secret here").length = ("a secret here" : String).length ∧
    ¬ (("secret" : String).data <:+: (censorMsg "secret" "a secret here").data) :=
  ⟨by decide, by decide, (C6_censor "secret" "a secret here" (by decide)).1,
   (C6_censor "secret" "a secret here" (by decide)).2 (by decide)⟩


/-- Unfolding of the analysis loop at ply 0 when the search result has no
score. -/
theorem analysisFill_zero_none (search : List String → InfoDict) (moves : List String)
    (arr : List (Option InfoDict)) (tr : List ℕ)
    (hsc : (search (moves.take 0)).fields.score = none) :
    analysisFill search moves 0 arr tr = .error .keyError := by
  have h0 : analysisFill search moves 0 arr tr =
      (match (search (moves.take 0)).fields.score with
       | none => .error .keyError
       | some _ => .ok (arr.set 0 (some (npsValidate (search (moves.take 0)))), tr ++ [0])) := rfl
  rw [h0, hsc]

/-- Unfolding of the analysis loop at ply 0 when the search result has a
score. -/
theorem analysisFill_zero_some (search : List String → InfoDict) (moves : List String)
    (arr : List (Option InfoDict)) (tr : List ℕ) (sv : ScoreVal)
    (hsc : (search (moves.take 0)).fields.score = some sv) :
    analysisFill search moves 0 arr tr =
      .ok (arr.set 0 (some (npsValidate (search (moves.take 0)))), tr ++ [0]) := by
  have h0 : analysisFill search moves 0 arr tr =
      (match (search (moves.take 0)).fields.score with
       | none => .error .keyError
       | some _ => .ok (arr.set 0 (some (npsValidate (search (moves.take 0)))), tr ++ [0])) := rfl
  rw [h0, hsc]

/-- Unfolding of the analysis loop at ply p + 1 when the search result has
no score. -/
theorem analysisFill_succ_none (search : List String → InfoDict) (moves : List String)
    (p : ℕ) (arr : List (Option InfoDict)) (tr : List ℕ)
    (hsc : (search (moves.take (p + 1))).fields.score = none) :
    analysisFill search moves (p + 1) arr tr = .error .keyError := by
  have h0 : analysisFill search moves (p + 1) arr tr =
      (match (search (moves.take (p + 1))).fields.score with
       | none => .error .keyError
       | some _ =>
          analysisFill search moves p
            (arr.set (p + 1) (some (npsValidate (search (moves.take (p + 1))))))
            (tr ++ [p + 1])) := rfl
  rw [h0, hsc]

/-- Unfolding of the analysis loop at ply p + 1 when the search result has
a score. -/
theorem analysisFill_succ_some (search : List String → InfoDict) (moves : List String)
    (p : ℕ) (arr : List (Option InfoDict)) (tr : List ℕ) (sv : ScoreVal)
    (hsc : (search (moves.take (p + 1))).fields.score = some sv) :
    analysisFill search moves (p + 1) arr tr =
      analysisFill search moves p
        (arr.set (p + 1) (some (npsValidate (search (moves.take (p + 1))))))
        (tr ++ [p + 1]) := by
  have h0 : analysisFill search moves (p + 1) arr tr =
      (match (search (moves.take (p + 1))).fields.score with
       | none => .error .keyError
       | some _ =>
          analysisFill search moves p
            (arr.set (p + 1) (some (npsValidate (search (moves.take (p + 1))))))
            (tr ++ [p + 1])) := rfl
  rw [h0, hsc]

/-- Invariant of the analysis loop run from ply down to 0: on success the
array keeps its length, the trace extends by the descending ply range,
every position up to ply now holds the validated search result for its
move prefix, and every position above ply is untouched. -/
theorem analysisFill_ok_spec (search : List String → InfoDict) (moves : List String) :
    ∀ (ply : ℕ) (arr : List (Option InfoDict)) (tr : List ℕ)
      (arr2 : List (Option InfoDict)) (tr2 : List ℕ),
    analysisFill search moves ply arr tr = .ok (arr2, tr2) →
    arr2.length = arr.length ∧
    tr2 = tr ++ descRange ply ∧
    (∀ i, i ≤ ply → i < arr.length →
      arr2[i]? = some (some (npsValidate (search (moves.take i))))) ∧
    (∀ i, ply < i → arr2[i]? = arr[i]?) := by
  intro ply
  induction ply with
  | zero =>
    intro arr tr arr2 tr2 h
    rcases hsc : (search (moves.take 0)).fields.score with _ | sv
    · rw [analysisFill_zero_none search moves arr tr hsc] at h
      exact Except.noConfusion h
    · rw [analysisFill_zero_some search moves arr tr sv hsc] at h
      injection h with h1
      injection h1 with h1 h2
      refine ⟨by rw [← h1, List.length_set], by rw [← h2]; rfl, ?_, ?_⟩
      · intro i hi hlt
        have hi0 : i = 0 := Nat.le_zero.mp hi
        subst hi0
        rw [← h1]
        exact List.getElem?_set_self hlt
      · intro i hi
        rw [← h1]
        exact List.getElem?_set_ne (by omega)
  | succ p ih =>
    intro arr tr arr2 tr2 h
    rcases hsc : (search (moves.take (p + 1))).fields.score with _ | sv
    · rw [analysisFill_succ_none search moves p arr tr hsc] at h
      exact Except.noConfusion h
    · rw [analysisFill_succ_some search moves p arr tr sv hsc] at h
      obtain ⟨hlen, htr, hset, hother⟩ := ih _ _ _ _ h
      refine ⟨by rw [hlen, List.length_set], ?_, ?_, ?_⟩
      · rw [htr]
        show tr ++ [p + 1] ++ descRange p = tr ++ descRange (p + 1)
        rw [List.append_assoc, List.singleton_append]
        rfl
      · intro i hi hlt
        by_cases hip : i ≤ p
        · exact hset i hip (by rw [List.length_set]; exact hlt)
        · have hieq : i = p + 1 := by omega
          subst hieq
          rw [hother (p + 1) (by omega)]
          exact List.getElem?_set_self hlt
      · intro i hi
        rw [hother i (by omega)]
        exact List.getElem?_set_ne (by omega)

/-- The analysis loop run from ply fails exactly when some processed move
prefix yields a record without a score, and the only error it can raise
is the KeyError from reading part["score"]. -/
theorem analysisFill_error_spec (search : List String → InfoDict) (moves : List String) :
    ∀ (ply : ℕ) (arr : List (Option InfoDict)) (tr : List ℕ),
    ((∃ e, analysisFill search moves ply arr tr = .error e) ↔
      ∃ i, i ≤ ply ∧ (search (moves.take i)).fields.score = none) ∧
    (∀ e, analysisFill search moves ply arr tr = .error e → e = .keyError) := by
  intro ply
  induction ply with
  | zero =>
    intro arr tr
    rcases hsc : (search (moves.take 0)).fields.score with _ | sv
    · refine ⟨⟨fun _ => ⟨0, le_refl 0, hsc⟩,
        fun _ => ⟨.keyError, analysisFill_zero_none search moves arr tr hsc⟩⟩, ?_⟩
      intro e he
      rw [analysisFill_zero_none search moves arr tr hsc] at he
      injection he with h1
      exact h1.symm
    · refine ⟨⟨?_, ?_⟩, ?_⟩
      · rintro ⟨e, he⟩
        rw [analysisFill_zero_some search moves arr tr sv hsc] at he
        exact Except.noConfusion he
      · rintro ⟨i, hi, hnone⟩
        have hi0 : i = 0 := Nat.le_zero.mp hi
        subst hi0
        rw [hsc] at hnone
        exact Option.noConfusion hnone
      · intro e he
        rw [analysisFill_zero_some search moves arr tr sv hsc] at he
        exact Except.noConfusion he
  | succ p ih =>
    intro arr tr
    rcases hsc : (search (moves.take (p + 1))).fields.score with _ | sv
    · refine ⟨⟨fun _ => ⟨p + 1, le_refl _, hsc⟩,
        fun _ => ⟨.keyError, analysisFill_succ_none search moves p arr tr hsc⟩⟩, ?_⟩
      intro e he
      rw [analysisFill_succ_none search moves p arr tr hsc] at he
      injection he with h1
      exact h1.symm
    · have harr := ih (arr.set (p + 1) (some (npsValidate (search (moves.take (p + 1))))))
        (tr ++ [p + 1])
      refine ⟨⟨?_, ?_⟩, ?_⟩
      · rintro ⟨e, he⟩
        rw [analysisFill_succ_some search moves p arr tr sv hsc] at he
        obtain ⟨i, hi, hnone⟩ := harr.1.mp ⟨e, he⟩
        exact ⟨i, by omega, hnone⟩
      · rintro ⟨i, hi, hnone⟩
        have hip : i ≤ p := by
          by_cases hieq : i = p + 1
          · subst hieq
            rw [hsc] at hnone
            exact Option.noConfusion hnone
          · omega
        obtain ⟨e, he⟩ := harr.1.mpr ⟨i, hip, hnone⟩
        refine ⟨e, ?_⟩
        rw [analysisFill_succ_some search moves p arr tr sv hsc]
        exact he
      · intro e he
        rw [analysisFill_succ_some search moves p arr tr sv hsc] at he
        exact harr.2 e he

/-- Dropping an exorbitant nps never changes the score entry. -/
theorem npsValidate_score (d : InfoDict) : (npsValidate d).fields.score = d.fields.score := by
  rcases hn : d.fields.nps with _ | v
  · simp [npsValidate, hn]
  · by_cases hv : (100000000 : ℤ) ≤ v
    · simp [npsValidate, hn, hv]
    · simp [npsValidate, hn, hv]

/-- C1: a successfully returned analysis result has exactly
len(moves) + 1 entries, entry ply holds the (validated) InfoRecord of the
search after replaying the first ply moves, the entries were written in
descending ply order from len(moves) down to 0, and no entry is null. -/
theorem C1_analysis_array (search : List String → InfoDict) (moves : List String)
    (arr : List (Option InfoDict)) (tr : List ℕ)
    (h : analysisResult search moves = .ok (arr, tr)) :
    arr.length = moves.length + 1 ∧
    tr = descRange moves.length ∧
    (∀ i, i < arr.length → arr[i]? = some (some (npsValidate (search (moves.take i))))) ∧
    (∀ i, i < arr.length → arr[i]? ≠ some none) := by
  obtain ⟨hlen, htr, hset, _⟩ := analysisFill_ok_spec search moves moves.length
    (List.replicate (moves.length + 1) none) [] arr tr h
  have hlen2 : arr.length = moves.length + 1 := by rw [hlen, List.length_replicate]
  refine ⟨hlen2, by simpa using htr, ?_, ?_⟩
  · intro i hi
    exact hset i (by omega) (by rw [List.length_replicate]; omega)
  · intro i hi hcon
    have hgot := hset i (by omega) (by rw [List.length_replicate]; omega)
    rw [hgot] at hcon
    injection hcon with hcon1
    exact Option.noConfusion hcon1

/-- Witness for C1 at a constant scored search over two moves. -/
theorem C1_analysis_array_witness :
    analysisResult sampleSearch sampleMoves =
      .ok (List.replicate 3 (some (sampleSearch [])), [2, 1, 0]) ∧
    (List.replicate 3 (some (sampleSearch []))).length = sampleMoves.length + 1 ∧
    ([2, 1, 0] : List ℕ) = descRange sampleMoves.length :=
  ⟨by decide,
   (C1_analysis_array sampleSearch sampleMoves
     (List.replicate 3 (some (sampleSearch []))) [2, 1, 0] (by decide)).1,
   (C1_analysis_array sampleSearch sampleMoves
     (List.replicate 3 (some (sampleSearch []))) [2, 1, 0] (by decide)).2.1⟩

/-- C10: the analysis flow raises the KeyError from reading part["score"]
exactly when some processed search returns an InfoRecord without a score
field, and consequently every entry of a successfully returned analysis
array contains a score. -/
theorem C10_score_keyerror (search : List String → InfoDict) (moves : List String) :
    ((∃ i, i ≤ moves.length ∧ (search (moves.take i)).fields.score = none) ↔
      analysisResult search moves = .error .keyError) ∧
    (∀ arr tr, analysisResult search moves = .ok (arr, tr) →
      ∀ i, i < arr.length →
        ∃ part, arr[i]? = some (some part) ∧ part.fields.score ≠ none) := by
  have hspec := analysisFill_error_spec search moves moves.length
    (List.replicate (moves.length + 1) none) []
  constructor
  · constructor
    · intro hex
      obtain ⟨e, he⟩ := hspec.1.mpr hex
      rw [hspec.2 e he] at he
      exact he
    · intro herr
      exact hspec.1.mp ⟨.keyError, herr⟩
  · intro arr tr h i hi
    obtain ⟨hlen, _, hset, _⟩ := analysisFill_ok_spec search moves moves.length
      (List.replicate (moves.length + 1) none) [] arr tr h
    have hlen2 : arr.length = moves.length + 1 := by rw [hlen, List.length_replicate]
    have hgot := hset i (by omega) (by rw [List.length_replicate]; omega)
    refine ⟨npsValidate (search (moves.take i)), hgot, ?_⟩
    have hnone : ¬ ∃ iq, iq ≤ moves.length ∧ (search (moves.take iq)).fields.score = none := by
      intro hx
      obtain ⟨e, he⟩ := hspec.1.mpr hx
      have he2 : analysisResult search moves = .error e := he
      rw [h] at he2
      exact Except.noConfusion he2
    rw [npsValidate_score]
    intro hcon
    exact hnone ⟨i, by omega, hcon⟩

/-- Witness for C10 at a search that never reports a score. -/
theorem C10_score_keyerror_witness :
    (∃ i, i ≤ sampleMoves.length ∧
      (sampleSearchNoScore (sampleMoves.take i)).fields.score = none) ∧
    analysisResult sampleSearchNoScore sampleMoves = .error .keyError :=
  ⟨⟨0, by decide, by decide⟩,
   (C10_score_keyerror sampleSearchNoScore sampleMoves).1.mp ⟨0, by decide, by decide⟩⟩

/-- C9: the move list of a job with an empty moves string is [""] (one
empty-string move, not zero moves), so the analysis array has length 2
and the deepest search's position command carries a single empty token
after "moves". -/
theorem C9_empty_moves (pos : String) :
    jobMoves "" = [""] ∧
    (∀ (search : List String → InfoDict) (arr : List (Option InfoDict)) (tr : List ℕ),
      analysisResult search (jobMoves "") = .ok (arr, tr) → arr.length = 2) ∧
    positionCmd pos ((jobMoves "").take (jobMoves "").length) =
      "position fen " ++ pos ++ " moves " := by
  refine ⟨by decide, ?_, ?_⟩
  · intro search arr tr h
    obtain ⟨hlen, _, _, _⟩ := analysisFill_ok_spec search (jobMoves "") (jobMoves "").length
      (List.replicate ((jobMoves "").length + 1) none) [] arr tr h
    rw [hlen, List.length_replicate]
    rfl
  · show "position fen " ++ pos ++ " moves " ++
      joinSpace ((jobMoves "").take (jobMoves "").length) = _
    have hj : joinSpace ((jobMoves "").take (jobMoves "").length) = "" := by decide
    rw [hj, String.append_empty]

/-- Witness for C9 at the constant scored search and a concrete FEN. -/
theorem C9_empty_moves_witness :
    analysisResult sampleSearch (jobMoves "") =
      .ok ([some (sampleSearch []), some (sampleSearch [])], [1, 0]) ∧
    ([some (sampleSearch []), some (sampleSearch [])] : List (Option InfoDict)).length = 2 ∧
    positionCmd "8/8/8/8/8/8/8/8 w - - 0 1" ((jobMoves "").take (jobMoves "").length) =
      "position fen " ++ "8/8/8/8/8/8/8/8 w - - 0 1" ++ " moves " :=
  ⟨by decide,
   (C9_empty_moves "8/8/8/8/8/8/8/8 w - - 0 1").2.1 sampleSearch
     [some (sampleSearch []), some (sampleSearch [])] [1, 0] (by decide),
   (C9_empty_moves "8/8/8/8/8/8/8/8 w - - 0 1").2.2⟩
